import Mathlib

/-!
Verification of the Batch Dispatch & Submission-Monitoring Engine of the
`rfrestperf` repository, as implemented in `src/services/batchProcessor.js`,
`src/database/db.js`, and the renderer/server entry points.

The JavaScript source is shallowly embedded:
* `_monitorFax` becomes the fuelled loop `monitorLoop` / `monitorFax`
  (`monitorIter` is one loop body, parameterised by the backend response and
  the wall-clock value observed by `Date.now()` at that iteration);
* the chunk arithmetic of `_processBatch` (lines 137-149) becomes
  `numChunks` / `chunkSize` / `chunkSizes`;
* the concurrent part of `_processBatch` + `_sendSingleFax` becomes the
  labelled transition system `step` on `SysState`, with a demonic scheduler
  (`Reaches`, `runActs`);
* `startBatch` and the renderer form handler become `startBatch` and
  `handleBatchSubmit`;
* the `ON CONFLICT` merge arm of `updateMetrics` in `db.js` becomes
  `mergeMetrics` / `runMetrics`.

Machine integers are modelled as `Int`/`Nat`; times are abstract `Int`
millisecond timestamps supplied by oracles (one wall-clock sample per
observation point of the source).  The persistence layer is assumed
reliable (its calls do not throw), and backend API calls either return the
oracle value or throw (`PollResponse.apiError`, `CreateOutcome.err`).
-/

set_option autoImplicit false

namespace Rfrestperf

/-! ### Shared helpers -/

/-- JavaScript `String.prototype.toLowerCase()` restricted to the ASCII
strings that occur in the engine (statuses and conditions). -/
def jsToLowerCase (s : String) : String := ⟨s.data.map Char.toLower⟩

/-- JavaScript `Math.round(a / 1000) * 1000` for an integer number of
milliseconds `a`.  `Math.round x = ⌊x + 1/2⌋` (half-up, toward `+∞`),
hence floor division by 1000 after adding 500. -/
def mathRoundDiv1000 (a : Int) : Int := ((a + 500).fdiv 1000) * 1000

/-! ### Submission Monitor (`_monitorFax`, batchProcessor.js lines 324-413)

One poll iteration observes: the send job (status/condition strings), the
document list, and the current time `now = Date.now()`.  An `apiError`
response stands for any throw inside the `try` block of the iteration
(lines 332-405): it is caught, logged, and counted (`attempts++`). -/

/-- One element of `getDocumentsForSendJob`: the fields of a document the
monitor reads (`doc.Id`, `doc.Condition`, `doc.PageCount`). -/
structure MonitorDoc where
  docId : Nat
  docCondition : String
  pageCount : Nat
deriving Repr, DecidableEq

/-- The backend's answer to one poll iteration. -/
inductive PollResponse where
  | apiError
  | ok (jobStatus : String) (jobCondition : String) (docs : List MonitorDoc)
deriving Repr, DecidableEq

/-- The `updates` object passed to `db.updateSubmission` (a `none` field is
absent from the object and leaves the column unchanged). -/
structure SubUpdates where
  status : String
  condition : Option String := none
  documentId : Option Nat := none
  pageCount : Option Nat := none
  conversionCompletedAt : Option Int := none
  transmissionCompletedAt : Option Int := none
  conversionDuration : Option Int := none
  transmissionDuration : Option Int := none
  totalDuration : Option Int := none
  errorMessage : Option String := none
deriving Repr, DecidableEq

/-- Outcome of one loop body of `_monitorFax`: either the loop goes on
(`next`, with the `updates` persisted at line 399, or nothing when the
iteration threw), or the function returned (`finished`, terminal). -/
inductive IterOut where
  | next (persisted : Option SubUpdates)
  | finished (persisted : SubUpdates)
deriving Repr, DecidableEq

/-- One body of the `while` loop of `_monitorFax` (lines 331-406).
`t0` is `conversionStartTime`, `now` the value of `Date.now()` at this
iteration, `tst` the current `transmissionStartTime` (`none` = JS `null`,
never assigned outside the `Succeeded` branch, which returns). -/
def monitorIter (resp : PollResponse) (t0 now : Int) (tst : Option Int) : IterOut :=
  match resp with
  | .apiError => .next none
  | .ok jobStatus jobCondition docs =>
    let base : SubUpdates :=
      { status := jsToLowerCase jobStatus, condition := some jobCondition }
    match docs with
    | [] => .next (some base)
    | doc :: _ =>
      let u := { base with documentId := some doc.docId, pageCount := some doc.pageCount }
      if doc.docCondition = "Succeeded" then
        let tst2 := tst.getD now
        .finished { u with
          status := "sent"
          conversionCompletedAt := some (t0 + 5000)
          transmissionCompletedAt := some now
          conversionDuration := some (mathRoundDiv1000 (tst2 - t0))
          transmissionDuration := some (mathRoundDiv1000 (now - tst2))
          totalDuration := some (now - t0) }
      else if doc.docCondition = "Failed" ∨ doc.docCondition = "Canceled" then
        .finished { u with status := jsToLowerCase doc.docCondition }
      else
        .next (some u)

/-- `maxAttempts` constant of `_monitorFax` (line 325). -/
def maxAttempts : Nat := 120

/-- The final write of the timeout path (lines 409-412). -/
def monitorTimeoutWrite : SubUpdates :=
  { status := "timeout", errorMessage := some "Monitoring timeout - fax status unknown" }

/-- Result of a full monitor run: the number of executed loop iterations and
the last `updates` object persisted for the submission. -/
inductive MonitorResult where
  | finished (iterations : Nat) (final : SubUpdates)
  | timeout (iterations : Nat) (final : SubUpdates)
deriving Repr, DecidableEq

def MonitorResult.iterations : MonitorResult → Nat
  | .finished n _ => n
  | .timeout n _ => n

def MonitorResult.final : MonitorResult → SubUpdates
  | .finished _ u => u
  | .timeout _ u => u

/-- The `while (attempts < maxAttempts)` loop, with `fuel = maxAttempts -
attempts` as the recursion measure.  `attempts` counts the iterations
already executed: each non-terminal body increments it once (line 401 on a
clean pass, line 404 after a caught error); a terminal body returns. -/
def monitorLoop (resp : Nat → PollResponse) (time : Nat → Int) (t0 : Int)
    (tst : Option Int) : Nat → Nat → MonitorResult
  | attempts, 0 => .timeout attempts monitorTimeoutWrite
  | attempts, fuel + 1 =>
    match monitorIter (resp attempts) t0 (time attempts) tst with
    | .next _ => monitorLoop resp time t0 tst (attempts + 1) fuel
    | .finished u => .finished (attempts + 1) u

/-- `_monitorFax(faxHandle, submissionId)`: `attempts = 0`,
`transmissionStartTime = null`, up to `maxAttempts` iterations. -/
def monitorFax (resp : Nat → PollResponse) (time : Nat → Int) (t0 : Int) : MonitorResult :=
  monitorLoop resp time t0 none 0 maxAttempts

/-! ### Chunk partitioning (`_processBatch`, lines 137-149) -/

/-- `Math.ceil(totalCount / this.batchSize)` (line 137), for `batchSize > 0`. -/
def numChunks (totalCount batchSize : Nat) : Nat :=
  (totalCount + batchSize - 1) / batchSize

/-- `chunkSize = Math.min(chunkStart + batchSize, totalCount) - chunkStart`
with `chunkStart = chunkIndex * batchSize` (lines 140-142); this is the
`chunkSize` carried by the `chunkStarted` event of chunk `i` (0-based). -/
def chunkSize (totalCount batchSize i : Nat) : Nat :=
  min (i * batchSize + batchSize) totalCount - i * batchSize

/-- The sizes announced by the successive `chunkStarted` events. -/
def chunkSizes (totalCount batchSize : Nat) : List Nat :=
  (List.range (numChunks totalCount batchSize)).map (chunkSize totalCount batchSize)

/-! ### Metric-bucket merge (`updateMetrics`, db.js lines 252-291)

All columns of `fax_metrics` involved are `INTEGER`; the `ON CONFLICT
(date, hour) DO UPDATE` arm adds the counts, halves the sum for the
averages (PostgreSQL integer division truncates toward zero, `Int.tdiv`),
and takes `GREATEST` for the maxima. -/

/-- One `metrics` argument of `updateMetrics` (the row inserted on first
arrival into a `(date, hour)` bucket). -/
structure MetricsInput where
  total_submitted : Int
  total_succeeded : Int
  total_failed : Int
  total_cancelled : Int
  avg_conversion_time : Int
  avg_transmission_time : Int
  avg_total_time : Int
  max_conversion_time : Int
  max_transmission_time : Int
  total_pages : Int
  total_batches : Int
deriving Repr, DecidableEq

/-- The `DO UPDATE SET` arm: `prev` is the stored row, `incoming` the
`EXCLUDED` values. -/
def mergeMetrics (prev incoming : MetricsInput) : MetricsInput :=
  { total_submitted := prev.total_submitted + incoming.total_submitted
    total_succeeded := prev.total_succeeded + incoming.total_succeeded
    total_failed := prev.total_failed + incoming.total_failed
    total_cancelled := prev.total_cancelled + incoming.total_cancelled
    avg_conversion_time := Int.tdiv (prev.avg_conversion_time + incoming.avg_conversion_time) 2
    avg_transmission_time := Int.tdiv (prev.avg_transmission_time + incoming.avg_transmission_time) 2
    avg_total_time := Int.tdiv (prev.avg_total_time + incoming.avg_total_time) 2
    max_conversion_time := max prev.max_conversion_time incoming.max_conversion_time
    max_transmission_time := max prev.max_transmission_time incoming.max_transmission_time
    total_pages := prev.total_pages + incoming.total_pages
    total_batches := prev.total_batches + incoming.total_batches }

/-- One call of `updateMetrics` against a bucket: plain `INSERT` when the
bucket does not exist yet, the merge arm on conflict. -/
def applyMetrics (bucket : Option MetricsInput) (m : MetricsInput) : Option MetricsInput :=
  match bucket with
  | none => some m
  | some prev => some (mergeMetrics prev m)

/-- The bucket contents after a sequence of `updateMetrics` calls for the
same `(date, hour)`, in arrival order. -/
def runMetrics (ms : List MetricsInput) : Option MetricsInput :=
  ms.foldl applyMetrics none

/-- The order-independent projection of a bucket named by the claim: the six
count columns (merged by addition) and the two maximum columns (merged by
`GREATEST`). -/
structure MetricsCM where
  total_submitted : Int
  total_succeeded : Int
  total_failed : Int
  total_cancelled : Int
  total_pages : Int
  total_batches : Int
  max_conversion_time : Int
  max_transmission_time : Int
deriving Repr, DecidableEq

/-- Project a full metrics row onto its count and maximum columns. -/
def MetricsInput.cm (m : MetricsInput) : MetricsCM :=
  { total_submitted := m.total_submitted
    total_succeeded := m.total_succeeded
    total_failed := m.total_failed
    total_cancelled := m.total_cancelled
    total_pages := m.total_pages
    total_batches := m.total_batches
    max_conversion_time := m.max_conversion_time
    max_transmission_time := m.max_transmission_time }

/-- The count and maximum columns of a bucket (absent bucket = `none`). -/
def countsAndMaxes (bucket : Option MetricsInput) : Option MetricsCM :=
  bucket.map MetricsInput.cm

/-- The merge arm restricted to the count and maximum columns. -/
def mergeCM (prev incoming : MetricsCM) : MetricsCM :=
  { total_submitted := prev.total_submitted + incoming.total_submitted
    total_succeeded := prev.total_succeeded + incoming.total_succeeded
    total_failed := prev.total_failed + incoming.total_failed
    total_cancelled := prev.total_cancelled + incoming.total_cancelled
    total_pages := prev.total_pages + incoming.total_pages
    total_batches := prev.total_batches + incoming.total_batches
    max_conversion_time := max prev.max_conversion_time incoming.max_conversion_time
    max_transmission_time := max prev.max_transmission_time incoming.max_transmission_time }

def applyCM (bucket : Option MetricsCM) (m : MetricsCM) : Option MetricsCM :=
  match bucket with
  | none => some m
  | some prev => some (mergeCM prev m)

/-! ### `startBatch` (batchProcessor.js lines 40-110) and the renderer form
validation (`handleBatchSubmit` in the renderer source, which is the only
place the 1-100000 range is checked) -/

/-- The fields of `batchConfig` that `startBatch` reads.  `totalCount` is an
`Int` so that out-of-range and negative requests are representable. -/
structure BatchConfig where
  batchName : String
  userId : String
  filePath : String
  destinationNumber : String
  recipientName : Option String
  totalCount : Int
  priority : String
  billingCode1 : String
  billingCode2 : String
deriving Repr, DecidableEq

/-- The row handed to `db.createBatch` (inserted with status `pending`,
db.js lines 128-139). -/
structure BatchRow where
  batch_name : String
  user_id : String
  total_faxes : Int
  file_path : String
  file_size : Nat
  destination_number : String
  status : String
deriving Repr, DecidableEq

/-- Persistence calls that `startBatch` issues, in order. -/
inductive DbOp where
  | createBatch (row : BatchRow)
  | updateBatch (id : Nat) (status : String)
deriving Repr, DecidableEq

/-- `startBatch(batchConfig)`.  `loginOk` tells whether the session is (or
becomes) active; `fileStat` is the result of `fs.statSync` (`none` = the
call threw); `newBatchId` is the id the database returns.  The body
performs no validation of `totalCount`: with a live session and a
readable file it always creates the Batch row and flips it to
`processing`. -/
def startBatch (cfg : BatchConfig) (loginOk : Bool) (fileStat : Option Nat)
    (newBatchId : Nat) : Except String (Nat × List DbOp) :=
  if !loginOk then .error "Failed to login"
  else
    match fileStat with
    | none => .error "ENOENT: no such file or directory"
    | some size =>
      .ok (newBatchId,
        [DbOp.createBatch
          { batch_name := cfg.batchName
            user_id := cfg.userId
            total_faxes := cfg.totalCount
            file_path := cfg.filePath
            file_size := size
            destination_number := cfg.destinationNumber
            status := "pending" },
         DbOp.updateBatch newBatchId "processing"])

/-- The renderer's `handleBatchSubmit` validation: returns `true` exactly
when the handler reaches `ipcRenderer.invoke('start-batch', ...)`;
`false` means it returned early after an `alert` (empty file path, or
`totalCount < 1 || totalCount > 100000`). -/
def handleBatchSubmit (filePath : String) (totalCount : Int) : Bool :=
  if filePath = "" then false
  else if totalCount < 1 ∨ totalCount > 100000 then false
  else true

/-! ### Concurrent dispatch (`_processBatch` lines 128-221 and
`_sendSingleFax` lines 227-318)

The dispatch phase after a successful attachment upload is modelled as a
labelled transition system scheduled demonically.  JavaScript tasks run to
completion between `await` points, which fixes the atomic actions:

* `launch`: the dispatcher's inner loop starts `_sendSingleFax` for the
  next unit.  Its guard is exactly the code's: there are units left, the
  busy-wait gate saw `activeRequests.size < maxConcurrent` (lines
  156-158), and — because `await Promise.allSettled` separates chunks
  (line 179) — every still-active request belongs to the current chunk.
* `settle u`: the in-flight `_sendSingleFax` promise of unit `u` resolves:
  on `createSendJob` success it appends the `converting` Submission row,
  increments `processedCount` and spawns the detached Monitor (lines
  243-286); on a throw it appends the `failed` row with the synthetic
  handle and increments `failedCount` (lines 288-317).  Either way the
  promise leaves `activeRequests` (line 173).
* `monStep u`: one poll iteration of the detached `_monitorFax` task of
  unit `u` (the task the dispatcher never awaits).
* `complete`: the dispatcher falls out of the chunk loop — enabled exactly
  when every unit has been launched and every creation promise has
  settled — and persists `status: 'completed'` (lines 191-196).

Unit indices are 0-based; `submissionNumber = unit + 1`. -/

/-- Result of `this.faxApi.createSendJob` for one unit: the returned
`sendJobId`, or the message of the error thrown. -/
inductive CreateOutcome where
  | ok (sendJobId : String)
  | err (msg : String)
deriving Repr, DecidableEq

/-- Environment of one dispatch run: the batch parameters and the oracles
for the backend and the wall clock. -/
structure DispatchCtx where
  totalCount : Nat
  batchSize : Nat
  maxConcurrent : Nat
  create : Nat → CreateOutcome
  failClock : Nat → Nat
  monResp : Nat → Nat → PollResponse
  monTime : Nat → Nat → Int
  monT0 : Nat → Int

/-- `` `failed-${Date.now()}-${submissionNumber}` `` (line 298). -/
def syntheticHandle (now : Nat) (submissionNumber : Nat) : String :=
  "failed-" ++ toString now ++ "-" ++ toString submissionNumber

/-- A `fax_submissions` row, restricted to the columns the engine writes. -/
structure SubmissionRow where
  fax_handle : String
  status : String
  condition : Option String := none
  document_id : Option Nat := none
  page_count : Option Nat := none
  conversion_completed_at : Option Int := none
  transmission_completed_at : Option Int := none
  conversion_duration : Option Int := none
  transmission_duration : Option Int := none
  total_duration : Option Int := none
  error_message : Option String := none
deriving Repr, DecidableEq

/-- `db.updateSubmission(handle, updates)` on one row: fields present in
`updates` overwrite, absent fields keep the stored value. -/
def applyUpdates (r : SubmissionRow) (u : SubUpdates) : SubmissionRow :=
  { r with
    status := u.status
    condition := if u.condition.isSome then u.condition else r.condition
    document_id := if u.documentId.isSome then u.documentId else r.document_id
    page_count := if u.pageCount.isSome then u.pageCount else r.page_count
    conversion_completed_at :=
      if u.conversionCompletedAt.isSome then u.conversionCompletedAt else r.conversion_completed_at
    transmission_completed_at :=
      if u.transmissionCompletedAt.isSome then u.transmissionCompletedAt else r.transmission_completed_at
    conversion_duration :=
      if u.conversionDuration.isSome then u.conversionDuration else r.conversion_duration
    transmission_duration :=
      if u.transmissionDuration.isSome then u.transmissionDuration else r.transmission_duration
    total_duration := if u.totalDuration.isSome then u.totalDuration else r.total_duration
    error_message := if u.errorMessage.isSome then u.errorMessage else r.error_message }

/-- A running detached Monitor task: its unit, the handle it polls for, its
`attempts` counter and its `transmissionStartTime`. -/
structure MonEntry where
  unit : Nat
  handle : String
  attempts : Nat
  tst : Option Int
deriving Repr, DecidableEq

/-- State of one dispatch run.  `inFlight` is `this.activeRequests` (as the
units whose `_sendSingleFax` promise is pending), `launched` the number of
units whose creation has been started, `mons` the running (not yet
returned) Monitor tasks, `subs` the Submission rows in insertion order,
`batchStatus` the persisted status of the Batch row. -/
structure SysState where
  launched : Nat
  inFlight : List Nat
  subs : List SubmissionRow
  mons : List MonEntry
  batchStatus : String
  processedCount : Nat
  failedCount : Nat
deriving Repr, DecidableEq

/-- State on entry to the chunk loop (Batch row already `processing`,
attachment uploaded). -/
def initState : SysState :=
  { launched := 0, inFlight := [], subs := [], mons := [],
    batchStatus := "processing", processedCount := 0, failedCount := 0 }

/-- Scheduler actions. -/
inductive Act where
  | launch
  | settle (u : Nat)
  | monStep (u : Nat)
  | complete
deriving Repr, DecidableEq

/-- First unit of the chunk that unit `k` belongs to
(`chunkStart = chunkIndex * batchSize`). -/
def chunkFloor (batchSize k : Nat) : Nat := k / batchSize * batchSize

/-- The Submission row written on creation success (lines 258-268). -/
def convertingRow (jid : String) : SubmissionRow :=
  { fax_handle := jid, status := "converting" }

/-- The Submission row written on creation failure (lines 296-304). -/
def failedRow (ctx : DispatchCtx) (u : Nat) (msg : String) : SubmissionRow :=
  { fax_handle := syntheticHandle (ctx.failClock u) (u + 1)
    status := "failed"
    error_message := some msg }

/-- One scheduler-chosen atomic action; `none` when the action is not
enabled in `s`. -/
def step (ctx : DispatchCtx) (s : SysState) : Act → Option SysState
  | .launch =>
    if s.launched < ctx.totalCount
        ∧ s.inFlight.length < ctx.maxConcurrent
        ∧ ∀ u ∈ s.inFlight, chunkFloor ctx.batchSize s.launched ≤ u
    then some { s with launched := s.launched + 1, inFlight := s.launched :: s.inFlight }
    else none
  | .settle u =>
    if u ∈ s.inFlight then
      match ctx.create (u + 1) with
      | .ok jid =>
        some { s with
          inFlight := s.inFlight.erase u
          subs := s.subs ++ [convertingRow jid]
          processedCount := s.processedCount + 1
          mons := s.mons ++ [{ unit := u, handle := jid, attempts := 0, tst := none }] }
      | .err msg =>
        some { s with
          inFlight := s.inFlight.erase u
          subs := s.subs ++ [failedRow ctx u msg]
          failedCount := s.failedCount + 1 }
    else none
  | .monStep u =>
    match s.mons.find? (fun e => e.unit == u) with
    | none => none
    | some e =>
      if e.attempts < maxAttempts then
        match monitorIter (ctx.monResp u e.attempts) (ctx.monT0 u) (ctx.monTime u e.attempts) e.tst with
        | .next none =>
          some { s with
            mons := s.mons.map fun x =>
              if x.unit == u then { x with attempts := x.attempts + 1 } else x }
        | .next (some w) =>
          some { s with
            subs := s.subs.map fun r => if r.fax_handle == e.handle then applyUpdates r w else r
            mons := s.mons.map fun x =>
              if x.unit == u then { x with attempts := x.attempts + 1 } else x }
        | .finished w =>
          some { s with
            subs := s.subs.map fun r => if r.fax_handle == e.handle then applyUpdates r w else r
            mons := s.mons.filter fun x => ¬ x.unit == u }
      else
        some { s with
          subs := s.subs.map fun r =>
            if r.fax_handle == e.handle then applyUpdates r monitorTimeoutWrite else r
          mons := s.mons.filter fun x => ¬ x.unit == u }
  | .complete =>
    if s.launched = ctx.totalCount ∧ s.inFlight = [] ∧ s.batchStatus = "processing"
    then some { s with batchStatus := "completed" }
    else none

/-- Reachability under the demonic scheduler. -/
inductive Reaches (ctx : DispatchCtx) : SysState → SysState → Prop where
  | refl (s : SysState) : Reaches ctx s s
  | tail {s t v : SysState} {a : Act} :
      Reaches ctx s t → step ctx t a = some v → Reaches ctx s v

/-- Execute an explicit schedule. -/
def runActs (ctx : DispatchCtx) (s : SysState) : List Act → Option SysState
  | [] => some s
  | a :: rest =>
    match step ctx s a with
    | some t => runActs ctx t rest
    | none => none

/-- No `sendJobId` the backend hands out for a unit of the batch collides
with a synthetic failure handle of a unit of the batch (the backend ids
and the `failed-...` strings live in disjoint namespaces). -/
def HandleSep (ctx : DispatchCtx) : Prop :=
  ∀ v < ctx.totalCount, ∀ u < ctx.totalCount,
    ctx.create (v + 1) ≠ .ok (syntheticHandle (ctx.failClock u) (u + 1))

/-! ### Concrete instances used by counterexamples and witnesses -/

/-- Ideal poll timing: the monitor starts at `t0` and iteration `k`
observes `Date.now() = t0 + 5000 * (k + 1)` (each iteration spends
exactly its 5-second delay, API calls are instantaneous). -/
def timeIdeal (t0 : Int) (k : Nat) : Int := t0 + 5000 * (Int.ofNat k + 1)

/-- Backend for the C3 counterexample: no document on the first poll, a
`Succeeded` document on the second. -/
def respC3 : Nat → PollResponse
  | 0 => .ok "Processing" "InProgress" []
  | _ => .ok "Processing" "InProgress" [⟨7, "Succeeded", 3⟩]

/-- The final monitor write of the C3 counterexample run. -/
def uC3 : SubUpdates := (monitorFax respC3 (timeIdeal 0) 0).final

/-- Backend for the C10 witness: two documentless polls, then `Succeeded`. -/
def respC10 : Nat → PollResponse
  | 0 => .ok "Processing" "InProgress" []
  | 1 => .ok "Processing" "InProgress" []
  | _ => .ok "Processing" "InProgress" [⟨9, "Succeeded", 2⟩]

/-- The final monitor write of the C10 witness run. -/
def uC10 : SubUpdates := (monitorFax respC10 (timeIdeal 100) 100).final

/-- Backend for the C6 witness: every poll attempt throws. -/
def respC6 : Nat → PollResponse := fun _ => .apiError

/-- A one-unit dispatch whose creation succeeds and whose monitor keeps
seeing an in-progress job. -/
def ctx1 : DispatchCtx :=
  { totalCount := 1, batchSize := 100, maxConcurrent := 10,
    create := fun _ => .ok "JOB-1",
    failClock := fun _ => 1000,
    monResp := fun _ _ => .ok "Processing" "InProgress" [],
    monTime := fun _ k => timeIdeal 0 k,
    monT0 := fun _ => 0 }

/-- The C1 counterexample schedule: create the single unit, let its
`_sendSingleFax` promise settle (spawning the Monitor), and let the
dispatcher run to its batch-completion write before the Monitor's first
poll (the Monitor spends its first 5 seconds in `_delay`). -/
def sched1 : List Act := [Act.launch, Act.settle 0, Act.complete]

/-- The state after `sched1`. -/
def state1 : SysState := (runActs ctx1 initState sched1).getD initState

/-- The 5-unit dispatch of the C7 scenario: creation call 3 throws, the
other four succeed. -/
def ctx7 : DispatchCtx :=
  { totalCount := 5, batchSize := 100, maxConcurrent := 10,
    create := fun k => if k = 3 then .err "Network error" else .ok ("JOB-" ++ toString k),
    failClock := fun _ => 1000,
    monResp := fun _ _ => .ok "Processing" "InProgress" [],
    monTime := fun _ k => timeIdeal 0 k,
    monT0 := fun _ => 0 }

def sched7 : List Act :=
  [Act.launch, Act.launch, Act.launch, Act.launch, Act.launch,
   Act.settle 0, Act.settle 1, Act.settle 2, Act.settle 3, Act.settle 4, Act.complete]

def state7 : SysState := (runActs ctx7 initState sched7).getD initState

/-- Out-of-range batch configuration (requested count 0) for C4. -/
def cfgC4 : BatchConfig :=
  { batchName := "perf-run", userId := "tester", filePath := "/tmp/doc.pdf",
    destinationNumber := "+15550100", recipientName := none,
    totalCount := 0, priority := "Normal", billingCode1 := "", billingCode2 := "" }

/-- Two metric records and their two arrival orders, for the C9 witness. -/
def metricsA : MetricsInput :=
  { total_submitted := 10, total_succeeded := 7, total_failed := 2, total_cancelled := 1,
    avg_conversion_time := 4000, avg_transmission_time := 2000, avg_total_time := 6000,
    max_conversion_time := 9000, max_transmission_time := 5000,
    total_pages := 30, total_batches := 1 }

def metricsB : MetricsInput :=
  { total_submitted := 4, total_succeeded := 4, total_failed := 0, total_cancelled := 0,
    avg_conversion_time := 3000, avg_transmission_time := 1000, avg_total_time := 4000,
    max_conversion_time := 12000, max_transmission_time := 3000,
    total_pages := 8, total_batches := 2 }

/-! ## Theorems

### Monitor lemmas -/

theorem mathRoundDiv1000_zero : mathRoundDiv1000 0 = 0 := by decide

/-- The loop executes at most `attempts + fuel` iterations in total. -/
theorem monitorLoop_iterations_le (resp : Nat → PollResponse) (time : Nat → Int)
    (t0 : Int) (tst : Option Int) : ∀ fuel attempts,
    (monitorLoop resp time t0 tst attempts fuel).iterations ≤ attempts + fuel := by
  intro fuel
  induction fuel with
  | zero =>
    intro a
    simp [monitorLoop, MonitorResult.iterations]
  | succ f ih =>
    intro a
    cases hi : monitorIter (resp a) t0 (time a) tst with
    | next p =>
      simp only [monitorLoop, hi]
      have := ih (a + 1)
      omega
    | finished u =>
      simp only [monitorLoop, hi, MonitorResult.iterations]
      omega

/-- Reaching the ceiling is the only way to time out, and the timeout path
persists exactly the timeout write. -/
theorem monitorLoop_timeout_eq (resp : Nat → PollResponse) (time : Nat → Int)
    (t0 : Int) (tst : Option Int) : ∀ fuel attempts n w,
    monitorLoop resp time t0 tst attempts fuel = .timeout n w →
    n = attempts + fuel ∧ w = monitorTimeoutWrite := by
  intro fuel
  induction fuel with
  | zero =>
    intro a n w h
    simp only [monitorLoop, MonitorResult.timeout.injEq] at h
    exact ⟨by omega, h.2.symm⟩
  | succ f ih =>
    intro a n w h
    simp only [monitorLoop] at h
    cases hi : monitorIter (resp a) t0 (time a) tst with
    | next p =>
      rw [hi] at h
      have := ih (a + 1) n w h
      exact ⟨by omega, this.2⟩
    | finished u =>
      rw [hi] at h
      exact absurd h (by simp)

/-- Fields of the final write of a run that ends in status `sent`, given the
loop was entered with `transmissionStartTime = null` (which the
recursion never changes): the success branch assigns
`transmissionStartTime = now` and then derives every duration from it. -/
theorem monitorLoop_sent_fields (resp : Nat → PollResponse) (time : Nat → Int)
    (t0 : Int) : ∀ fuel attempts n u,
    monitorLoop resp time t0 none attempts fuel = .finished n u → u.status = "sent" →
    1 ≤ n ∧
    u.conversionDuration = some (mathRoundDiv1000 (time (n - 1) - t0)) ∧
    u.conversionCompletedAt = some (t0 + 5000) ∧
    u.transmissionDuration = some 0 ∧
    u.transmissionCompletedAt = some (time (n - 1)) ∧
    u.totalDuration = some (time (n - 1) - t0) := by
  intro fuel
  induction fuel with
  | zero =>
    intro a n u h hs
    simp [monitorLoop] at h
  | succ f ih =>
    intro a n u h hs
    cases hi : monitorIter (resp a) t0 (time a) none with
    | next p =>
      simp only [monitorLoop, hi] at h
      exact ih (a + 1) n u h hs
    | finished w =>
      simp only [monitorLoop, hi, MonitorResult.finished.injEq] at h
      obtain ⟨hn, hu⟩ := h
      subst hn
      subst hu
      cases hr : resp a with
      | apiError =>
        rw [hr] at hi
        simp [monitorIter] at hi
      | ok st cond docs =>
        rw [hr] at hi
        cases docs with
        | nil =>
          simp [monitorIter] at hi
        | cons doc rest =>
          simp only [monitorIter] at hi
          by_cases hsucc : doc.docCondition = "Succeeded"
          · rw [if_pos hsucc] at hi
            simp only [IterOut.finished.injEq] at hi
            subst hi
            refine ⟨by omega, ?_, ?_, ?_, ?_, ?_⟩ <;>
              simp [Option.getD, mathRoundDiv1000_zero, Nat.add_sub_cancel, sub_self]
          · rw [if_neg hsucc] at hi
            by_cases hfc : doc.docCondition = "Failed" ∨ doc.docCondition = "Canceled"
            · rw [if_pos hfc] at hi
              simp only [IterOut.finished.injEq] at hi
              subst hi
              rcases hfc with hf | hc
              · rw [hf] at hs
                simp only [jsToLowerCase] at hs
                exact absurd hs (by decide)
              · rw [hc] at hs
                simp only [jsToLowerCase] at hs
                exact absurd hs (by decide)
            · rw [if_neg hfc] at hi
              simp at hi

/-! ### Claim C6 -/

/-- Claim C6: every Monitor terminates within the attempt ceiling: the
polling loop executes at most `maxAttempts = 120` iterations for any
sequence of backend responses; an error during a single poll attempt
counts toward the ceiling but does not abort the loop; and when the
ceiling is reached with no terminal condition observed, the submission
is persisted with status `timeout` and an explanatory error message. -/
theorem c6_monitor_bounded (resp : Nat → PollResponse) (time : Nat → Int) (t0 : Int) :
    (monitorFax resp time t0).iterations ≤ maxAttempts ∧
    (∀ n w, monitorFax resp time t0 = .timeout n w →
      n = maxAttempts ∧ w.status = "timeout" ∧
      w.errorMessage = some "Monitoring timeout - fax status unknown") ∧
    (∀ tst attempts fuel, resp attempts = .apiError →
      monitorLoop resp time t0 tst attempts (fuel + 1) =
        monitorLoop resp time t0 tst (attempts + 1) fuel) := by
  refine ⟨?_, ?_, ?_⟩
  · have := monitorLoop_iterations_le resp time t0 none maxAttempts 0
    simpa [monitorFax] using this
  · intro n w h
    have := monitorLoop_timeout_eq resp time t0 none maxAttempts 0 n w h
    obtain ⟨hn, hw⟩ := this
    subst hw
    exact ⟨by omega, rfl, rfl⟩
  · intro tst a f hr
    simp [monitorLoop, monitorIter, hr]

/-- Witness for C6 at a backend that throws on every poll: the run performs
exactly the ceiling number of iterations and ends in the timeout write. -/
theorem c6_monitor_bounded_witness :
    (monitorFax respC6 (timeIdeal 0) 0).iterations ≤ maxAttempts ∧
    (monitorFax respC6 (timeIdeal 0) 0).final.status = "timeout" ∧
    (monitorFax respC6 (timeIdeal 0) 0).final.errorMessage =
      some "Monitoring timeout - fax status unknown" := by
  have h := c6_monitor_bounded respC6 (timeIdeal 0) 0
  have hrun : monitorFax respC6 (timeIdeal 0) 0 = .timeout 120 monitorTimeoutWrite := by rfl
  have h2 := h.2.1 120 monitorTimeoutWrite hrun
  exact ⟨h.1, by rw [hrun]; exact h2.2.1, by rw [hrun]; exact h2.2.2⟩

/-! ### Claim C3 -/

/-- Counterexample to claim C3: a submission whose Monitor observes
`Succeeded` on the second poll is persisted with status `sent` and a
conversion duration of 10000 ms, not the fixed first poll interval of
5000 ms. -/
theorem c3_conversion_duration_cex :
    (monitorFax respC3 (timeIdeal 0) 0).final.status = "sent" ∧
    (monitorFax respC3 (timeIdeal 0) 0).final.conversionDuration = some 10000 ∧
    ¬ (monitorFax respC3 (timeIdeal 0) 0).final.conversionDuration = some 5000 := by
  refine ⟨rfl, rfl, by decide⟩

/-- Claim C3 as amended: for every submission whose Monitor ends in status
`sent`, the persisted conversion duration is the whole elapsed time from
monitor start to the poll that observed `Succeeded`, rounded to whole
seconds (`Math.round((transmissionStartTime - conversionStartTime)/1000)
* 1000`, where `transmissionStartTime` is first assigned at that very
poll); only the `conversion_completed_at` timestamp is charged the fixed
first poll interval (`conversionStartTime + 5000`). -/
theorem c3_conversion_duration_amended (resp : Nat → PollResponse) (time : Nat → Int)
    (t0 : Int) (n : Nat) (u : SubUpdates)
    (h : monitorFax resp time t0 = .finished n u) (hs : u.status = "sent") :
    u.conversionDuration = some (mathRoundDiv1000 (time (n - 1) - t0)) ∧
    u.conversionCompletedAt = some (t0 + 5000) := by
  have hf := monitorLoop_sent_fields resp time t0 maxAttempts 0 n u h hs
  exact ⟨hf.2.1, hf.2.2.1⟩

/-- Witness for the amended C3 at the two-poll success run: the conversion
duration equals the full elapsed 10000 ms and the completed-at timestamp
is the fixed `t0 + 5000`. -/
theorem c3_conversion_duration_amended_witness :
    uC3.conversionDuration = some (mathRoundDiv1000 (timeIdeal 0 1 - 0)) ∧
    uC3.conversionCompletedAt = some (0 + 5000) := by
  have h := c3_conversion_duration_amended respC3 (timeIdeal 0) 0 2 uC3 (by rfl) (by rfl)
  exact h

/-! ### Claim C10 -/

/-- Claim C10: for every submission whose Monitor ends in status `sent`, the
persisted transmission duration is exactly 0 ms, for any backend
responses and any poll timing, because `transmissionStartTime` is first
assigned at the same instant the `Succeeded` condition is observed. -/
theorem c10_transmission_duration_zero (resp : Nat → PollResponse) (time : Nat → Int)
    (t0 : Int) (n : Nat) (u : SubUpdates)
    (h : monitorFax resp time t0 = .finished n u) (hs : u.status = "sent") :
    u.transmissionDuration = some 0 := by
  exact (monitorLoop_sent_fields resp time t0 maxAttempts 0 n u h hs).2.2.2.1

/-- Witness for C10 at a three-poll success run. -/
theorem c10_transmission_duration_zero_witness : uC10.transmissionDuration = some 0 := by
  exact c10_transmission_duration_zero respC10 (timeIdeal 100) 100 3 uC10 (by rfl) (by rfl)

/-! ### Dispatch system lemmas -/

theorem Reaches.trans {ctx : DispatchCtx} {s t v : SysState}
    (h1 : Reaches ctx s t) (h2 : Reaches ctx t v) : Reaches ctx s v := by
  induction h2 with
  | refl => exact h1
  | tail _ hs ih => exact .tail ih hs

theorem reaches_of_runActs (ctx : DispatchCtx) :
    ∀ (acts : List Act) (s t : SysState), runActs ctx s acts = some t → Reaches ctx s t := by
  intro acts
  induction acts with
  | nil =>
    intro s t h
    simp only [runActs, Option.some.injEq] at h
    subst h
    exact .refl s
  | cons a rest ih =>
    intro s t h
    simp only [runActs] at h
    cases hs : step ctx s a with
    | none => rw [hs] at h; exact absurd h (by simp)
    | some s2 =>
      rw [hs] at h
      exact Reaches.trans (.tail (.refl s) hs) (ih s2 t h)

/-- Inductive invariant of the dispatch system (independent of handle
separation): every in-flight unit has been launched; the permit set never
exceeds `maxConcurrent`; exactly one Submission row exists per settled
unit; the `completed` status is persisted only once every unit has been
launched and every creation promise has settled; and every running
Monitor belongs to a launched unit whose creation succeeded with the
handle it polls for. -/
structure Inv (ctx : DispatchCtx) (s : SysState) : Prop where
  launched_le : s.launched ≤ ctx.totalCount
  inflight_lt : ∀ u ∈ s.inFlight, u < s.launched
  gate : s.inFlight.length ≤ ctx.maxConcurrent
  count : s.subs.length + s.inFlight.length = s.launched
  completedAll : s.batchStatus = "completed" → s.launched = ctx.totalCount ∧ s.inFlight = []
  monsOk : ∀ e ∈ s.mons, ctx.create (e.unit + 1) = .ok e.handle ∧ e.unit < s.launched

theorem inv_init (ctx : DispatchCtx) : Inv ctx initState := by
  refine ⟨?_, ?_, ?_, ?_, ?_, ?_⟩ <;> simp [initState]

theorem inv_step {ctx : DispatchCtx} {s t : SysState} {a : Act}
    (hinv : Inv ctx s) (h : step ctx s a = some t) : Inv ctx t := by
  cases a with
  | launch =>
    simp only [step] at h
    split at h
    · rename_i hg
      obtain ⟨h1, h2, h3⟩ := hg
      rw [Option.some.injEq] at h
      subst h
      refine ⟨?_, ?_, ?_, ?_, ?_, ?_⟩
      · dsimp only
        omega
      · intro u hu
        dsimp only at hu ⊢
        rcases List.mem_cons.mp hu with hu | hu
        · omega
        · have := hinv.inflight_lt u hu
          omega
      · dsimp only
        rw [List.length_cons]
        omega
      · dsimp only
        rw [List.length_cons]
        have := hinv.count
        omega
      · intro hc
        dsimp only at hc
        have := (hinv.completedAll hc).1
        omega
      · intro e he
        dsimp only at he ⊢
        have := hinv.monsOk e he
        exact ⟨this.1, by omega⟩
    · exact absurd h (by simp)
  | settle u =>
    simp only [step] at h
    split at h
    · rename_i hmem
      split at h
      · rename_i jid hcr
        rw [Option.some.injEq] at h
        subst h
        refine ⟨?_, ?_, ?_, ?_, ?_, ?_⟩
        · exact hinv.launched_le
        · intro v hv
          dsimp only at hv ⊢
          exact hinv.inflight_lt v (List.mem_of_mem_erase hv)
        · dsimp only
          exact le_trans (List.erase_sublist u s.inFlight).length_le hinv.gate
        · dsimp only
          rw [List.length_append, List.length_erase_of_mem hmem]
          have := hinv.count
          have := List.length_pos_of_mem hmem
          simp only [List.length_cons, List.length_nil]
          omega
        · intro hc
          dsimp only at hc
          rcases hinv.completedAll hc with ⟨_, he⟩
          rw [he] at hmem
          exact absurd hmem (List.not_mem_nil u)
        · intro e he
          dsimp only at he ⊢
          rcases List.mem_append.mp he with he | he
          · exact hinv.monsOk e he
          · simp only [List.mem_singleton] at he
            subst he
            exact ⟨hcr, hinv.inflight_lt u hmem⟩
      · rename_i msg hcr
        rw [Option.some.injEq] at h
        subst h
        refine ⟨?_, ?_, ?_, ?_, ?_, ?_⟩
        · exact hinv.launched_le
        · intro v hv
          dsimp only at hv ⊢
          exact hinv.inflight_lt v (List.mem_of_mem_erase hv)
        · dsimp only
          exact le_trans (List.erase_sublist u s.inFlight).length_le hinv.gate
        · dsimp only
          rw [List.length_append, List.length_erase_of_mem hmem]
          have := hinv.count
          have := List.length_pos_of_mem hmem
          simp only [List.length_cons, List.length_nil]
          omega
        · intro hc
          dsimp only at hc
          rcases hinv.completedAll hc with ⟨_, he⟩
          rw [he] at hmem
          exact absurd hmem (List.not_mem_nil u)
        · intro e he
          dsimp only at he ⊢
          exact hinv.monsOk e he
    · exact absurd h (by simp)
  | monStep u =>
    simp only [step] at h
    split at h
    · exact absurd h (by simp)
    · rename_i e hf
      have hemem : e ∈ s.mons := List.mem_of_find?_eq_some hf
      split at h
      · split at h
        · rw [Option.some.injEq] at h
          subst h
          refine ⟨hinv.launched_le, hinv.inflight_lt, hinv.gate, ?_, hinv.completedAll, ?_⟩
          · dsimp only
            exact hinv.count
          · intro x hx
            dsimp only at hx ⊢
            rcases List.mem_map.mp hx with ⟨x0, hx0, hfx⟩
            rcases hinv.monsOk x0 hx0 with ⟨hok, hlt⟩
            by_cases hux : x0.unit == u <;> simp [hux] at hfx <;> subst hfx
            · exact ⟨hok, hlt⟩
            · exact ⟨hok, hlt⟩
        · rw [Option.some.injEq] at h
          subst h
          refine ⟨hinv.launched_le, hinv.inflight_lt, hinv.gate, ?_, hinv.completedAll, ?_⟩
          · dsimp only
            rw [List.length_map]
            exact hinv.count
          · intro x hx
            dsimp only at hx ⊢
            rcases List.mem_map.mp hx with ⟨x0, hx0, hfx⟩
            rcases hinv.monsOk x0 hx0 with ⟨hok, hlt⟩
            by_cases hux : x0.unit == u <;> simp [hux] at hfx <;> subst hfx
            · exact ⟨hok, hlt⟩
            · exact ⟨hok, hlt⟩
        · rw [Option.some.injEq] at h
          subst h
          refine ⟨hinv.launched_le, hinv.inflight_lt, hinv.gate, ?_, hinv.completedAll, ?_⟩
          · dsimp only
            rw [List.length_map]
            exact hinv.count
          · intro x hx
            dsimp only at hx ⊢
            exact hinv.monsOk x (List.mem_of_mem_filter hx)
      · rw [Option.some.injEq] at h
        subst h
        refine ⟨hinv.launched_le, hinv.inflight_lt, hinv.gate, ?_, hinv.completedAll, ?_⟩
        · dsimp only
          rw [List.length_map]
          exact hinv.count
        · intro x hx
          dsimp only at hx ⊢
          exact hinv.monsOk x (List.mem_of_mem_filter hx)
  | complete =>
    simp only [step] at h
    split at h
    · rename_i hg
      obtain ⟨h1, h2, h3⟩ := hg
      rw [Option.some.injEq] at h
      subst h
      refine ⟨hinv.launched_le, hinv.inflight_lt, hinv.gate, hinv.count, ?_, hinv.monsOk⟩
      intro _
      exact ⟨h1, h2⟩
    · exact absurd h (by simp)

theorem reaches_inv {ctx : DispatchCtx} {s : SysState}
    (h : Reaches ctx initState s) : Inv ctx s := by
  induction h with
  | refl => exact inv_init ctx
  | tail _ hs ih => exact inv_step ih hs

/-- Every settled unit whose creation call threw owns a Submission row with
the synthetic handle, status `failed` and the thrown message. -/
def FailedRows (ctx : DispatchCtx) (s : SysState) : Prop :=
  ∀ u msg, u < s.launched → u ∉ s.inFlight → ctx.create (u + 1) = .err msg →
    ∃ r ∈ s.subs, r.fax_handle = syntheticHandle (ctx.failClock u) (u + 1) ∧
      r.status = "failed" ∧ r.error_message = some msg

theorem failedRows_init (ctx : DispatchCtx) : FailedRows ctx initState := by
  intro u msg hu
  simp [initState] at hu

/-- Monitor writes go to rows whose handle is a backend `sendJobId`, hence
(under `HandleSep`) never to a synthetic-handle row. -/
theorem failedRows_map_preserve {ctx : DispatchCtx} {s : SysState} {e : MonEntry}
    (hsep : HandleSep ctx) (hinv : Inv ctx s) (hfr : FailedRows ctx s)
    (hemem : e ∈ s.mons) (w : SubUpdates) :
    ∀ u msg, u < s.launched → u ∉ s.inFlight → ctx.create (u + 1) = .err msg →
      ∃ r ∈ (s.subs.map fun r => if r.fax_handle == e.handle then applyUpdates r w else r),
        r.fax_handle = syntheticHandle (ctx.failClock u) (u + 1) ∧
        r.status = "failed" ∧ r.error_message = some msg := by
  intro u msg hu hni hcr
  obtain ⟨r, hr, hh, hst, hmsg⟩ := hfr u msg hu hni hcr
  obtain ⟨hok, hlt⟩ := hinv.monsOk e hemem
  have hne : (r.fax_handle == e.handle) = false := by
    rw [beq_eq_false_iff_ne]
    intro hbe
    have h1 := hsep e.unit (by have := hinv.launched_le; omega) u
      (by have := hinv.launched_le; omega)
    rw [hok, ← hh, hbe] at h1
    exact h1 rfl
  refine ⟨r, ?_, hh, hst, hmsg⟩
  refine List.mem_map.mpr ⟨r, hr, ?_⟩
  rw [hne]
  rfl

theorem failedRows_step {ctx : DispatchCtx} {s t : SysState} {a : Act}
    (hsep : HandleSep ctx) (hinv : Inv ctx s) (hfr : FailedRows ctx s)
    (h : step ctx s a = some t) : FailedRows ctx t := by
  cases a with
  | launch =>
    simp only [step] at h
    split at h
    · rw [Option.some.injEq] at h
      subst h
      intro u msg hu hni hcr
      dsimp only at hu hni ⊢
      by_cases hue : u = s.launched
      · subst hue
        exact absurd (List.mem_cons_self s.launched s.inFlight) hni
      · have hu2 : u < s.launched := by omega
        exact hfr u msg hu2 (fun hm => hni (List.mem_cons_of_mem _ hm)) hcr
    · exact absurd h (by simp)
  | settle v =>
    simp only [step] at h
    split at h
    · rename_i hmem
      split at h
      · rename_i jid hcr0
        rw [Option.some.injEq] at h
        subst h
        intro u msg hu hni hcr
        dsimp only at hu hni ⊢
        by_cases hvu : u = v
        · subst hvu
          rw [hcr0] at hcr
          exact absurd hcr (by simp)
        · have hni2 : u ∉ s.inFlight := fun hm =>
            hni ((List.mem_erase_of_ne hvu).mpr hm)
          obtain ⟨r, hr, hrest⟩ := hfr u msg hu hni2 hcr
          exact ⟨r, List.mem_append_left _ hr, hrest⟩
      · rename_i msg0 hcr0
        rw [Option.some.injEq] at h
        subst h
        intro u msg hu hni hcr
        dsimp only at hu hni ⊢
        by_cases hvu : u = v
        · subst hvu
          rw [hcr0] at hcr
          have hmm : msg0 = msg := by
            cases hcr
            rfl
          subst hmm
          refine ⟨failedRow ctx u msg0, List.mem_append_right _ ?_, rfl, rfl, rfl⟩
          exact List.mem_singleton.mpr rfl
        · have hni2 : u ∉ s.inFlight := fun hm =>
            hni ((List.mem_erase_of_ne hvu).mpr hm)
          obtain ⟨r, hr, hrest⟩ := hfr u msg hu hni2 hcr
          exact ⟨r, List.mem_append_left _ hr, hrest⟩
    · exact absurd h (by simp)
  | monStep v =>
    simp only [step] at h
    split at h
    · exact absurd h (by simp)
    · rename_i e hf
      have hemem : e ∈ s.mons := List.mem_of_find?_eq_some hf
      split at h
      · split at h
        · rw [Option.some.injEq] at h
          subst h
          intro u msg hu hni hcr
          dsimp only at hu hni ⊢
          exact hfr u msg hu hni hcr
        · rename_i w _
          rw [Option.some.injEq] at h
          subst h
          intro u msg hu hni hcr
          dsimp only at hu hni ⊢
          exact failedRows_map_preserve hsep hinv hfr hemem w u msg hu hni hcr
        · rename_i w _
          rw [Option.some.injEq] at h
          subst h
          intro u msg hu hni hcr
          dsimp only at hu hni ⊢
          exact failedRows_map_preserve hsep hinv hfr hemem w u msg hu hni hcr
      · rw [Option.some.injEq] at h
        subst h
        intro u msg hu hni hcr
        dsimp only at hu hni ⊢
        exact failedRows_map_preserve hsep hinv hfr hemem monitorTimeoutWrite u msg hu hni hcr
  | complete =>
    simp only [step] at h
    split at h
    · rw [Option.some.injEq] at h
      subst h
      intro u msg hu hni hcr
      dsimp only at hu hni ⊢
      exact hfr u msg hu hni hcr
    · exact absurd h (by simp)

theorem reaches_failedRows {ctx : DispatchCtx} {s : SysState} (hsep : HandleSep ctx)
    (h : Reaches ctx initState s) : FailedRows ctx s := by
  induction h with
  | refl => exact failedRows_init ctx
  | tail hr hs ih => exact failedRows_step hsep (reaches_inv hr) ih hs

/-! ### Claim C1 -/

/-- Counterexample to claim C1: in the one-unit batch `ctx1`, the schedule
"creation resolves, `_sendSingleFax` settles (spawning the detached
Monitor), dispatcher falls out of the chunk loop" puts the Batch row at
status `completed` while the spawned Monitor is still running (one entry
in `mons`, zero polls done) and its Submission is still `converting` —
because `_processBatch` awaits only the creation promises
(`Promise.allSettled`, line 179), never the `_monitorFax` promise
(detached at line 282). -/
theorem c1_completed_before_monitor_terminal_cex :
    (runActs ctx1 initState sched1).map
      (fun s => (s.batchStatus, s.mons.length, s.subs.map SubmissionRow.status)) =
      some ("completed", 1, ["converting"]) := by
  rfl

/-- Claim C1 as amended: the Batch row is set to `completed` only after
every unit has been launched and every job-creation promise has settled
(the set the Dispatcher actually awaits); spawned Monitors are not
awaited and may still be running at that point. -/
theorem c1_completed_after_creations_settled (ctx : DispatchCtx) (s : SysState)
    (h : Reaches ctx initState s) (hc : s.batchStatus = "completed") :
    s.launched = ctx.totalCount ∧ s.inFlight = [] :=
  (reaches_inv h).completedAll hc

/-- Witness for the amended C1 at the concrete one-unit run. -/
theorem c1_completed_after_creations_settled_witness :
    state1.launched = ctx1.totalCount ∧ state1.inFlight = [] :=
  c1_completed_after_creations_settled ctx1 state1
    (reaches_of_runActs ctx1 sched1 initState state1 rfl) rfl

/-! ### Claim C2 -/

/-- Claim C2: for every requested count (1 ≤ n ≤ 100000), once the batch
reaches status `completed`, exactly one Submission row exists per
requested unit — `n` rows in total, under any scheduling — and every
unit whose creation call threw owns a row in status `failed` with the
synthetic handle and the thrown message. -/
theorem c2_one_submission_per_unit (ctx : DispatchCtx) (s : SysState)
    (_hn1 : 1 ≤ ctx.totalCount) (_hn2 : ctx.totalCount ≤ 100000)
    (hsep : HandleSep ctx) (h : Reaches ctx initState s)
    (hc : s.batchStatus = "completed") :
    s.subs.length = ctx.totalCount ∧
    ∀ u msg, u < ctx.totalCount → ctx.create (u + 1) = .err msg →
      ∃ r ∈ s.subs, r.fax_handle = syntheticHandle (ctx.failClock u) (u + 1) ∧
        r.status = "failed" ∧ r.error_message = some msg := by
  have hinv := reaches_inv h
  obtain ⟨hl, he⟩ := hinv.completedAll hc
  constructor
  · have hcnt := hinv.count
    rw [he] at hcnt
    simp only [List.length_nil] at hcnt
    omega
  · intro u msg hu hcr
    refine reaches_failedRows hsep h u msg (by omega) ?_ hcr
    rw [he]
    exact List.not_mem_nil u

/-- Witness for C2 at the completed one-unit run. -/
theorem c2_one_submission_per_unit_witness : state1.subs.length = ctx1.totalCount :=
  (c2_one_submission_per_unit ctx1 state1 (by decide) (by decide)
    (by unfold HandleSep; decide)
    (reaches_of_runActs ctx1 sched1 initState state1 rfl) rfl).1

/-! ### Claim C5 -/

/-- Claim C5: in every reachable state of a dispatch run, at most
`maxConcurrent` creation requests are in flight, and a new unit's
`_sendSingleFax` call is launched only when the active-request set has
fewer than `maxConcurrent` members (the busy-wait gate of lines
156-158). -/
theorem c5_concurrency_bound (ctx : DispatchCtx) (s : SysState)
    (h : Reaches ctx initState s) :
    s.inFlight.length ≤ ctx.maxConcurrent ∧
    ∀ s2, step ctx s Act.launch = some s2 → s.inFlight.length < ctx.maxConcurrent := by
  refine ⟨(reaches_inv h).gate, ?_⟩
  intro s2 hs
  simp only [step] at hs
  split at hs
  · rename_i hg
    exact hg.2.1
  · exact absurd hs (by simp)

/-- Witness for C5 at the concrete one-unit run. -/
theorem c5_concurrency_bound_witness : state1.inFlight.length ≤ ctx1.maxConcurrent :=
  (c5_concurrency_bound ctx1 state1
    (reaches_of_runActs ctx1 sched1 initState state1 rfl)).1

/-! ### Claim C7 -/

/-- Claim C7: a unit whose job-creation call throws is isolated: its settle
never aborts dispatch — it appends exactly one `failed` Submission row
carrying the synthetic handle and the thrown message and lets everything
else march on — and in the 5-unit scenario with creation call 3 throwing,
the batch still reaches `completed` with 4 `converting` Submissions and 1
`failed` Submission whose error message is populated. -/
theorem c7_creation_failure_isolated :
    (∀ (ctx : DispatchCtx) (s : SysState) (u : Nat) (msg : String),
      u ∈ s.inFlight → ctx.create (u + 1) = .err msg →
      step ctx s (.settle u) = some
        { s with
          inFlight := s.inFlight.erase u
          subs := s.subs ++ [failedRow ctx u msg]
          failedCount := s.failedCount + 1 }) ∧
    (runActs ctx7 initState sched7).map
      (fun s => (s.batchStatus, s.processedCount, s.failedCount,
        s.subs.map fun r => (r.fax_handle, r.status, r.error_message))) =
      some ("completed", 4, 1,
        [("JOB-1", "converting", none), ("JOB-2", "converting", none),
         ("failed-1000-3", "failed", some "Network error"),
         ("JOB-4", "converting", none), ("JOB-5", "converting", none)]) := by
  constructor
  · intro ctx s u msg hm hcr
    simp only [step, if_pos hm, hcr]
  · rfl

/-- The state of the C7 scenario after its five launches. -/
def stateC7pre : SysState :=
  (runActs ctx7 initState
    [Act.launch, Act.launch, Act.launch, Act.launch, Act.launch]).getD initState

/-- Witness for C7: settling the throwing unit 2 (submission number 3) of
the scenario appends its failed row and removes only that unit from the
active set. -/
theorem c7_creation_failure_isolated_witness :
    step ctx7 stateC7pre (Act.settle 2) = some
      { stateC7pre with
        inFlight := stateC7pre.inFlight.erase 2
        subs := stateC7pre.subs ++ [failedRow ctx7 2 "Network error"]
        failedCount := stateC7pre.failedCount + 1 } :=
  c7_creation_failure_isolated.1 ctx7 stateC7pre 2 "Network error" (by decide) rfl

/-! ### Claim C8 -/

theorem lt_numChunks_iff (n c k : Nat) (hc : 0 < c) :
    k < numChunks n c ↔ k * c < n := by
  unfold numChunks
  rw [Nat.lt_iff_add_one_le, Nat.le_div_iff_mul_le hc, add_one_mul]
  generalize k * c = t
  omega

theorem le_numChunks_mul (n c : Nat) (hc : 0 < c) : n ≤ numChunks n c * c := by
  unfold numChunks
  have h := Nat.div_add_mod (n + c - 1) c
  have hr : (n + c - 1) % c < c := Nat.mod_lt _ hc
  rw [Nat.mul_comm]
  generalize c * ((n + c - 1) / c) = t at h ⊢
  generalize (n + c - 1) % c = r at h hr
  omega

theorem chunkSizes_prefix_sum (n c : Nat) :
    ∀ k, ((List.range k).map (chunkSize n c)).sum = min (k * c) n := by
  intro k
  induction k with
  | zero => simp
  | succ k ih =>
    rw [List.range_succ, List.map_append, List.sum_append, ih]
    simp only [List.map_cons, List.map_nil, List.sum_cons, List.sum_nil]
    unfold chunkSize
    rw [add_one_mul]
    generalize k * c = t
    omega

/-- Claim C8: for every requested count `n ≥ 1` and chunk size `c ≥ 1`, the
Dispatcher partitions the `n` units into `ceil(n/c)` chunks whose sizes
are `c` for every chunk but the last, whose size is `n - (ceil(n/c)-1)*c`;
the sizes sum to `n`, and 250 units with chunk size 100 give exactly the
three `chunkStarted` sizes 100, 100, 50. -/
theorem c8_chunk_partition (n c : Nat) (hc : 0 < c) (hn : 0 < n) :
    (chunkSizes n c).length = numChunks n c ∧
    (∀ i, i + 1 < numChunks n c → chunkSize n c i = c) ∧
    chunkSize n c (numChunks n c - 1) = n - (numChunks n c - 1) * c ∧
    (chunkSizes n c).sum = n ∧
    chunkSizes 250 100 = [100, 100, 50] := by
  refine ⟨?_, ?_, ?_, ?_, by rfl⟩
  · simp [chunkSizes]
  · intro i hi
    have h2 := (lt_numChunks_iff n c (i + 1) hc).mp hi
    unfold chunkSize
    rw [add_one_mul] at h2
    generalize i * c = t at h2 ⊢
    omega
  · obtain ⟨p, hp⟩ : ∃ p, numChunks n c = p + 1 := by
      refine ⟨numChunks n c - 1, ?_⟩
      have h0 : 0 < numChunks n c := (lt_numChunks_iff n c 0 hc).mpr (by simpa using hn)
      omega
    rw [hp]
    simp only [Nat.add_sub_cancel]
    have hlt := (lt_numChunks_iff n c p hc).mp (by omega)
    have hge := le_numChunks_mul n c hc
    rw [hp, add_one_mul] at hge
    unfold chunkSize
    generalize p * c = t at hlt hge ⊢
    omega
  · rw [chunkSizes, chunkSizes_prefix_sum n c (numChunks n c)]
    have hge := le_numChunks_mul n c hc
    generalize numChunks n c * c = t at hge ⊢
    omega

/-- Witness for C8 at the scenario numbers. -/
theorem c8_chunk_partition_witness :
    (chunkSizes 250 100).length = numChunks 250 100 ∧
    (chunkSizes 250 100).sum = 250 ∧
    chunkSizes 250 100 = [100, 100, 50] := by
  have h := c8_chunk_partition 250 100 (by decide) (by decide)
  exact ⟨h.1, h.2.2.2.1, h.2.2.2.2⟩

/-! ### Claim C9 -/

theorem foldl_perm_of_comm {α β : Type} (f : β → α → β)
    (hf : ∀ b a1 a2, f (f b a1) a2 = f (f b a2) a1) :
    ∀ {l1 l2 : List α}, l1.Perm l2 → ∀ b, l1.foldl f b = l2.foldl f b := by
  intro l1 l2 hp
  induction hp with
  | nil => intro b; rfl
  | cons x _ ih =>
    intro b
    simp only [List.foldl_cons]
    exact ih (f b x)
  | swap x y l =>
    intro b
    simp only [List.foldl_cons]
    rw [hf]
  | trans _ _ ih1 ih2 =>
    intro b
    rw [ih1, ih2]

theorem countsAndMaxes_foldl (l : List MetricsInput) (b : Option MetricsInput) :
    countsAndMaxes (l.foldl applyMetrics b) =
      (l.map MetricsInput.cm).foldl applyCM (countsAndMaxes b) := by
  induction l generalizing b with
  | nil => rfl
  | cons m rest ih =>
    simp only [List.foldl_cons, List.map_cons]
    rw [ih]
    congr 1
    cases b with
    | none => rfl
    | some prev => rfl

theorem applyCM_comm (b : Option MetricsCM) (m1 m2 : MetricsCM) :
    applyCM (applyCM b m1) m2 = applyCM (applyCM b m2) m1 := by
  cases b with
  | none =>
    simp only [applyCM, Option.some.injEq]
    simp only [mergeCM, MetricsCM.mk.injEq]
    omega
  | some prev =>
    simp only [applyCM, Option.some.injEq]
    simp only [mergeCM, MetricsCM.mk.injEq]
    omega

/-- Claim C9: merging metric records into the same `(date, hour)` bucket is
order-independent for the count columns (merged by addition) and the
maximum columns (merged by `GREATEST`): any two arrival orders that are
permutations of each other leave those columns equal. -/
theorem c9_metrics_merge_order_independent (l1 l2 : List MetricsInput) (hp : l1.Perm l2) :
    countsAndMaxes (runMetrics l1) = countsAndMaxes (runMetrics l2) := by
  unfold runMetrics
  rw [countsAndMaxes_foldl, countsAndMaxes_foldl]
  exact foldl_perm_of_comm applyCM applyCM_comm (hp.map MetricsInput.cm) _

/-- Witness for C9 at two concrete records arriving in both orders. -/
theorem c9_metrics_merge_order_independent_witness :
    countsAndMaxes (runMetrics [metricsA, metricsB]) =
      countsAndMaxes (runMetrics [metricsB, metricsA]) :=
  c9_metrics_merge_order_independent [metricsA, metricsB] [metricsB, metricsA]
    (List.Perm.swap metricsB metricsA [])

/-! ### Claim C4 -/

/-- Counterexample to claim C4: the requested count 0 is outside 1-100000,
yet `startBatch` (the entry point behind both the IPC handler and the
HTTP route, which validate nothing) does not reject it: with a live
session and a readable file it creates the Batch row (`total_faxes = 0`)
and moves it to `processing`. -/
theorem c4_out_of_range_cex :
    (cfgC4.totalCount < 1 ∨ cfgC4.totalCount > 100000) ∧
    startBatch cfgC4 true (some 4096) 1 =
      .ok (1,
        [DbOp.createBatch
          { batch_name := "perf-run", user_id := "tester", total_faxes := 0,
            file_path := "/tmp/doc.pdf", file_size := 4096,
            destination_number := "+15550100", status := "pending" },
         DbOp.updateBatch 1 "processing"]) := by
  exact ⟨Or.inl (by decide), rfl⟩

/-- Claim C4 as amended: the 1-100000 range check exists only in the
renderer's form handler, which returns before invoking the engine (so no
Batch row is created on the UI form path); `startBatch` itself performs
no count validation and creates a Batch row for any requested count. -/
theorem c4_validation_amended (fp : String) (tc : Int) (h : tc < 1 ∨ tc > 100000)
    (cfg : BatchConfig) (size bid : Nat) :
    handleBatchSubmit fp tc = false ∧
    startBatch cfg true (some size) bid =
      .ok (bid,
        [DbOp.createBatch
          { batch_name := cfg.batchName, user_id := cfg.userId,
            total_faxes := cfg.totalCount, file_path := cfg.filePath,
            file_size := size, destination_number := cfg.destinationNumber,
            status := "pending" },
         DbOp.updateBatch bid "processing"]) := by
  constructor
  · unfold handleBatchSubmit
    by_cases hfp : fp = "" <;> simp [hfp, h]
  · rfl

/-- Witness for the amended C4 at count 0. -/
theorem c4_validation_amended_witness :
    handleBatchSubmit "/tmp/doc.pdf" 0 = false ∧
    startBatch cfgC4 true (some 4096) 1 =
      .ok (1,
        [DbOp.createBatch
          { batch_name := cfgC4.batchName, user_id := cfgC4.userId,
            total_faxes := cfgC4.totalCount, file_path := cfgC4.filePath,
            file_size := 4096, destination_number := cfgC4.destinationNumber,
            status := "pending" },
         DbOp.updateBatch 1 "processing"]) :=
  c4_validation_amended "/tmp/doc.pdf" 0 (Or.inl (by decide)) cfgC4 4096 1

end Rfrestperf
